import Mathlib

/-!
Shallow embedding of the slide-animation engine of this repository:
the per-slide animation controller (`useSlideAnimation`), the grouped
navigation gate (`useSlideGroupedAnimation`) and the richer keyboard
"next" chain (`usePPTControls.goNext`).

Conventions of the embedding:
* the React `useRef` mutable cells become fields of an explicit `Engine`
  record; every operation is a function `Engine → Engine` (or
  `Engine → Engine × List AEvent` when it may invoke completion
  callbacks);
* `setTimeout` bodies become explicit `Timer` values in a pending queue;
  a separate `fire` step runs one pending timer, in any order (the claims
  under study do not depend on wall-clock order);
* JavaScript object identity matters (timer closures capture element
  objects that `Map.set` / `Map.clear` may later detach), so every
  element object carries a generation number `gen`; detached objects are
  kept in a `dead` list and timers address objects by `(id, gen)`;
* JavaScript `x || d` on numbers treats `0` as falsy; `orDefault`
  reproduces this.
-/

namespace SlideAnim

/-- Which of the three phases an element is currently animating. -/
inductive Phase where
  | enter
  | emphasis
  | exit
deriving DecidableEq, Repr

/-- An animation descriptor as used by the engine: `type` is opaque to the
sequencing logic; `duration`/`delay` feed the timer deadline. -/
structure ElementAnimation where
  type : String
  duration : Option Nat
  delay : Option Nat
deriving DecidableEq, Repr

/-- Per-element configuration passed to `addElement`.  `refAttached` models
whether `ref.current` is non-null (the engine guards every animation start
on it). -/
structure ElementConfig where
  refAttached : Bool
  enter : Option ElementAnimation
  emphasis : Option ElementAnimation
  exit : Option ElementAnimation
  order : Option Int
  group : Option Int
deriving DecidableEq, Repr

/-- One registered element: the `ElementState` record of the source, plus a
generation number standing in for JavaScript object identity. -/
structure ElementState where
  id : String
  gen : Nat
  config : ElementConfig
  enterCompleted : Bool
  emphasisCompleted : Bool
  exitCompleted : Bool
  currentAnimation : Option Phase
deriving DecidableEq, Repr

/-- Pending `setTimeout` bodies.  Cohorts are the `Array.from(...)`
snapshots (as `(id, gen)` object references) captured by the closures. -/
inductive Timer where
  | groupedStart
  | groupStart (group : Int)
  | enterGrouped (id : String) (gen : Nat) (group : Int) (fireAfter : Nat)
  | enterParallel (id : String) (gen : Nat) (cohort : List (String × Nat)) (fireAfter : Nat)
  | emphasisTimer (id : String) (gen : Nat) (cohort : List (String × Nat)) (fireAfter : Nat)
  | exitTimer (id : String) (gen : Nat) (cohort : List (String × Nat)) (fireAfter : Nat)
deriving DecidableEq, Repr

/-- The `groupCacheRef` record: cached total-group count keyed by the
element count it was computed at (`-1` forces recomputation). -/
structure GroupCache where
  totalGroups : Nat
  lastElementCount : Int
deriving DecidableEq, Repr

/-- `parallel` / `sequential` playback mode. -/
inductive AnimationMode where
  | parallel
  | sequential
deriving DecidableEq, Repr

/-- Observable notifications: one entry per invocation of one subscriber
callback (subscribers are identified by the token they registered with). -/
inductive AEvent where
  | enterDone (cb : Nat)
  | emphasisDone (cb : Nat)
  | exitDone (cb : Nat)
  | groupDone (cb : Nat) (group : Int) (isLast : Bool)
  | pageChange
deriving DecidableEq, Repr

/-- The whole mutable state of one `useSlideAnimation` instance. -/
structure Engine where
  elements : List ElementState
  dead : List ElementState
  currentGroup : Int
  mode : AnimationMode
  isGrouped : Bool
  groupCache : GroupCache
  nextGen : Nat
  enterCbs : List Nat
  emphasisCbs : List Nat
  exitCbs : List Nat
  groupCbs : List Nat
  timers : List Timer
deriving DecidableEq, Repr

/-- A freshly constructed engine (all refs at their initial values). -/
def initEngine : Engine :=
  { elements := []
    dead := []
    currentGroup := 0
    mode := AnimationMode.parallel
    isGrouped := false
    groupCache := { totalGroups := 0, lastElementCount := 0 }
    nextGen := 0
    enterCbs := []
    emphasisCbs := []
    exitCbs := []
    groupCbs := []
    timers := [] }

/-- JavaScript `x || d` for an optional number (`0` is falsy). -/
def orDefault (o : Option Nat) (d : Nat) : Nat :=
  match o with
  | some n => if n = 0 then d else n
  | none => d

/-- The distinct group tags present among registered elements, in first
occurrence order (the `Set` built by `getTotalGroups`). -/
def groupTags (els : List ElementState) : List Int :=
  (els.filterMap (fun e => e.config.group)).dedup

/-- The group count `getTotalGroups` recomputes on a cache miss. -/
def getTotalGroupsPure (els : List ElementState) : Nat :=
  (groupTags els).length

/-- `getTotalGroups()` with its element-count-keyed cache; returns the
count together with the (possibly cache-updated) engine. -/
def getTotalGroups (s : Engine) : Nat × Engine :=
  if s.groupCache.lastElementCount = (s.elements.length : Int) then
    (s.groupCache.totalGroups, s)
  else
    let t := getTotalGroupsPure s.elements
    (t, { s with groupCache := { totalGroups := t, lastElementCount := (s.elements.length : Int) } })

/-- The group cache agrees with the element registry. -/
def cacheCoherent (s : Engine) : Prop :=
  s.groupCache.lastElementCount = (s.elements.length : Int) ∧
  s.groupCache.totalGroups = getTotalGroupsPure s.elements

instance (s : Engine) : Decidable (cacheCoherent s) := by
  unfold cacheCoherent; infer_instance

/-- Mutate the object identified by `(id, gen)` wherever it occurs in a
list (JavaScript mutation through a captured reference). -/
def setObjFlags (f : ElementState → ElementState) (id : String) (gen : Nat)
    (els : List ElementState) : List ElementState :=
  els.map (fun e => if e.id == id && e.gen == gen then f e else e)

/-- Mutate the object `(id, gen)` whether it is still registered or has
been detached (overwritten / cleared) but is still referenced by a timer
closure. -/
def mutateObj (s : Engine) (id : String) (gen : Nat)
    (f : ElementState → ElementState) : Engine :=
  { s with
    elements := setObjFlags f id gen s.elements
    dead := setObjFlags f id gen s.dead }

/-- Dereference a captured object. -/
def findObj (s : Engine) (id : String) (gen : Nat) : Option ElementState :=
  (s.elements ++ s.dead).find? (fun e => e.id == id && e.gen == gen)

/-- `getGroupElements`: the registered elements whose group tag strictly
equals `g` (an element with no tag never matches). -/
def getGroupElements (s : Engine) (g : Int) : List ElementState :=
  s.elements.filter (fun e => e.config.group == some g)

/-- One iteration of the per-element loops of `animateGroup` / `start` /
`emphasis` / `exit`: when the guard holds, mark the object as animating
`ph` and schedule its completion timer. -/
def procStep (guard : ElementState → Bool) (ph : Phase) (mkT : ElementState → Timer)
    (acc : Engine) (e : ElementState) : Engine :=
  if guard e then
    { acc with
      elements := setObjFlags (fun x => { x with currentAnimation := some ph }) e.id e.gen acc.elements
      timers := acc.timers ++ [mkT e] }
  else acc

/-- Guard of `animateGroup`'s loop: attached ref, enter descriptor, not
yet entered. -/
def enterGuard (e : ElementState) : Bool :=
  e.config.refAttached && e.config.enter.isSome && !e.enterCompleted

/-- Enter timer deadline: `(duration || 600) + (delay || 0)`. -/
def enterDeadline (e : ElementState) : Nat :=
  match e.config.enter with
  | some a => orDefault a.duration 600 + orDefault a.delay 0
  | none => 600

/-- `animateGroup(group, forcedTotalGroups?)`: set the current group,
(re)compute the total for logging (`forced || getTotalGroups()`), then
start the enter animation of every not-yet-entered element of the group. -/
def animateGroup (group : Int) (forcedTotal : Option Nat) (s : Engine) : Engine :=
  let s1 := { s with currentGroup := group }
  let s2 := match forcedTotal with
    | some n => if n = 0 then (getTotalGroups s1).2 else s1
    | none => (getTotalGroups s1).2
  (getGroupElements s2 group).foldl
    (procStep enterGuard Phase.enter
      (fun e => Timer.enterGrouped e.id e.gen group (enterDeadline e))) s2

/-- `checkGroupCompletion(group)`: when every element of a non-empty group
has entered, notify `onGroupComplete` subscribers; if it was the last
group also notify `onEnterComplete` subscribers, else auto-advance in
grouped sequential mode. -/
def checkGroupCompletion (group : Int) (s : Engine) : Engine × List AEvent :=
  let ge := getGroupElements s group
  if ge.all (fun e => e.enterCompleted) && !ge.isEmpty then
    let p := getTotalGroups s
    let isLast : Bool := decide (group ≥ (p.1 : Int) - 1)
    let evs := p.2.groupCbs.map (fun cb => AEvent.groupDone cb group isLast)
    if isLast then
      (p.2, evs ++ p.2.enterCbs.map AEvent.enterDone)
    else if p.2.isGrouped && p.2.mode == AnimationMode.sequential then
      (animateGroup (group + 1) none { p.2 with currentGroup := group + 1 }, evs)
    else
      (p.2, evs)
  else (s, [])

/-- Run one pending timer body. -/
def fireTimer (t : Timer) (s : Engine) : Engine × List AEvent :=
  match t with
  | Timer.groupedStart =>
    let p := getTotalGroups s
    (animateGroup 0 (some p.1) p.2, [])
  | Timer.groupStart g => (animateGroup g none s, [])
  | Timer.enterGrouped id gen g _ =>
    let s1 := mutateObj s id gen (fun e => { e with enterCompleted := true, currentAnimation := none })
    checkGroupCompletion g s1
  | Timer.enterParallel id gen cohort _ =>
    let s1 := mutateObj s id gen (fun e => { e with enterCompleted := true, currentAnimation := none })
    if cohort.all (fun p => (findObj s1 p.1 p.2).all (fun e => e.enterCompleted)) then
      (s1, s1.enterCbs.map AEvent.enterDone)
    else (s1, [])
  | Timer.emphasisTimer id gen cohort _ =>
    let s1 := mutateObj s id gen (fun e => { e with emphasisCompleted := true, currentAnimation := none })
    if cohort.all (fun p => (findObj s1 p.1 p.2).all (fun e => e.config.emphasis.isNone || e.emphasisCompleted)) then
      (s1, s1.emphasisCbs.map AEvent.emphasisDone)
    else (s1, [])
  | Timer.exitTimer id gen cohort _ =>
    let s1 := mutateObj s id gen (fun e => { e with exitCompleted := true, currentAnimation := none })
    if cohort.all (fun p => (findObj s1 p.1 p.2).all (fun e => e.config.exit.isNone || e.exitCompleted)) then
      (s1, s1.exitCbs.map AEvent.exitDone)
    else (s1, [])

/-- `addElement(id, ref, config)`: build a fresh entry (all flags false),
overwrite in place if the id exists (the old object becomes detached),
invalidate the group cache and recompute it. -/
def addElement (id : String) (cfg : ElementConfig) (s : Engine) : Engine :=
  let e : ElementState :=
    { id := id, gen := s.nextGen, config := cfg
      enterCompleted := false, emphasisCompleted := false, exitCompleted := false
      currentAnimation := none }
  let s1 :=
    if s.elements.any (fun x => x.id == id) then
      { s with
        elements := s.elements.map (fun x => if x.id == id then e else x)
        dead := s.dead ++ s.elements.filter (fun x => x.id == id)
        nextGen := s.nextGen + 1
        groupCache := { totalGroups := s.groupCache.totalGroups, lastElementCount := -1 } }
    else
      { s with
        elements := s.elements ++ [e]
        nextGen := s.nextGen + 1
        groupCache := { totalGroups := s.groupCache.totalGroups, lastElementCount := -1 } }
  (getTotalGroups s1).2

/-- `start()`: parallel mode fires every element's enter timer at once
(capturing the element snapshot for the all-done check); sequential mode
schedules one `animateGroup` call per distinct group. -/
def start (s : Engine) : Engine :=
  match s.mode with
  | AnimationMode.parallel =>
    let cohort := s.elements.map (fun e => (e.id, e.gen))
    s.elements.foldl
      (procStep (fun e => e.config.refAttached && e.config.enter.isSome) Phase.enter
        (fun e => Timer.enterParallel e.id e.gen cohort (enterDeadline e))) s
  | AnimationMode.sequential =>
    { s with timers := s.timers
        ++ ((groupTags s.elements).mergeSort (fun a b => a ≤ b)).map Timer.groupStart }

/-- `startGrouped()`: switch on grouped playback, point at group 0 and
defer the actual group-0 kick to a timer. -/
def startGrouped (s : Engine) : Engine :=
  { s with isGrouped := true, currentGroup := 0, timers := s.timers ++ [Timer.groupedStart] }

/-- `nextGroup()`: move to `min(currentGroup + 1, totalGroups - 1)` and
animate that group; do nothing when the index does not change. -/
def nextGroup (s : Engine) : Engine :=
  let p := getTotalGroups s
  let nxt := min (p.2.currentGroup + 1) ((p.1 : Int) - 1)
  if nxt ≠ p.2.currentGroup then
    animateGroup nxt none { p.2 with currentGroup := nxt }
  else p.2

/-- Emphasis timer deadline: `duration || 600` (no delay term in the
source). -/
def emphasisDeadline (e : ElementState) : Nat :=
  match e.config.emphasis with
  | some a => orDefault a.duration 600
  | none => 600

/-- `emphasis()`: fire the emphasis animation of every element with an
attached ref, an emphasis descriptor, and a completed enter phase. -/
def emphasis (s : Engine) : Engine :=
  let cohort := s.elements.map (fun e => (e.id, e.gen))
  s.elements.foldl
    (procStep (fun e => e.config.refAttached && e.config.emphasis.isSome && e.enterCompleted)
      Phase.emphasis
      (fun e => Timer.emphasisTimer e.id e.gen cohort (emphasisDeadline e))) s

/-- Exit timer deadline: `duration || 600`. -/
def exitDeadline (e : ElementState) : Nat :=
  match e.config.exit with
  | some a => orDefault a.duration 600
  | none => 600

/-- `exit()`: fire the exit animation of every element with an attached
ref and an exit descriptor (no enter-completion gate). -/
def exit (s : Engine) : Engine :=
  let cohort := s.elements.map (fun e => (e.id, e.gen))
  s.elements.foldl
    (procStep (fun e => e.config.refAttached && e.config.exit.isSome)
      Phase.exit
      (fun e => Timer.exitTimer e.id e.gen cohort (exitDeadline e))) s

/-- `skip()`: synchronously mark every registered element fully completed
and notify all three completion subscriber sets (pending timers are NOT
cancelled — the source stores no timer handles). -/
def skip (s : Engine) : Engine × List AEvent :=
  let s1 :=
    { s with elements := s.elements.map (fun e =>
        { e with enterCompleted := true, emphasisCompleted := true
                 exitCompleted := true, currentAnimation := none }) }
  (s1, s1.enterCbs.map AEvent.enterDone
        ++ s1.emphasisCbs.map AEvent.emphasisDone
        ++ s1.exitCbs.map AEvent.exitDone)

/-- `reset()`: clear the element map (the objects become detached),
reset `currentGroup`, the grouped flag, all subscriber lists and the
cache (pending timers are not cancelled — no handles are stored). -/
def reset (s : Engine) : Engine :=
  { s with
    elements := []
    dead := s.dead ++ s.elements
    currentGroup := 0
    isGrouped := false
    enterCbs := []
    emphasisCbs := []
    exitCbs := []
    groupCbs := []
    groupCache := { totalGroups := 0, lastElementCount := 0 } }

/-- `isAllGroupsComplete()`: `currentGroup >= totalGroups - 1` (the cache
threading of `getTotalGroups` is made explicit in the returned state). -/
def isAllGroupsComplete (s : Engine) : Bool × Engine :=
  let p := getTotalGroups s
  (decide (p.2.currentGroup ≥ (p.1 : Int) - 1), p.2)

/-- `getCurrentGroup()`. -/
def getCurrentGroup (s : Engine) : Int := s.currentGroup

/-- `isEmphasisComplete()`: every element either has no emphasis
descriptor or has completed its emphasis. -/
def isEmphasisComplete (s : Engine) : Bool :=
  s.elements.all (fun e => e.config.emphasis.isNone || e.emphasisCompleted)

/-- `isExitComplete()`: every element either has no exit descriptor or
has completed its exit. -/
def isExitComplete (s : Engine) : Bool :=
  s.elements.all (fun e => e.config.exit.isNone || e.exitCompleted)

/-- The engine operations a client can invoke, plus `fire i` — the event
loop running the i-th pending timer. -/
inductive Op where
  | addElement (id : String) (cfg : ElementConfig)
  | setMode (m : AnimationMode)
  | start
  | startGrouped
  | nextGroup
  | emphasisStep
  | exitStep
  | skipStep
  | resetStep
  | onEnterComplete (t : Nat)
  | onEmphasisComplete (t : Nat)
  | onExitComplete (t : Nat)
  | onGroupComplete (t : Nat)
  | fire (i : Nat)
deriving DecidableEq, Repr

/-- Apply one operation, collecting the subscriber notifications it
emits. -/
def applyOp (s : Engine) (op : Op) : Engine × List AEvent :=
  match op with
  | Op.addElement id cfg => (addElement id cfg s, [])
  | Op.setMode m => ({ s with mode := m }, [])
  | Op.start => (start s, [])
  | Op.startGrouped => (startGrouped s, [])
  | Op.nextGroup => (nextGroup s, [])
  | Op.emphasisStep => (emphasis s, [])
  | Op.exitStep => (exit s, [])
  | Op.skipStep => skip s
  | Op.resetStep => (reset s, [])
  | Op.onEnterComplete t => ({ s with enterCbs := s.enterCbs ++ [t] }, [])
  | Op.onEmphasisComplete t => ({ s with emphasisCbs := s.emphasisCbs ++ [t] }, [])
  | Op.onExitComplete t => ({ s with exitCbs := s.exitCbs ++ [t] }, [])
  | Op.onGroupComplete t => ({ s with groupCbs := s.groupCbs ++ [t] }, [])
  | Op.fire i =>
    match s.timers.get? i with
    | some t => fireTimer t { s with timers := s.timers.eraseIdx i }
    | none => (s, [])

/-- Run a sequence of operations. -/
def runOps (s : Engine) (ops : List Op) : Engine :=
  ops.foldl (fun a op => (applyOp a op).1) s

/-- Run a sequence of operations, concatenating every notification
emitted along the way. -/
def runOpsTr (s : Engine) (ops : List Op) : Engine × List AEvent :=
  ops.foldl (fun p op =>
    let r := applyOp p.1 op
    (r.1, p.2 ++ r.2)) (s, [])

/-- Outcome of the grouped-navigation gate. -/
inductive NextOutcome where
  | animation
  | pageChange
  | blocked
deriving DecidableEq, Repr

/-- `handleNextRequest()` of `useSlideGroupedAnimation`: no engine ⇒ page
change; all groups complete ⇒ page change; `currentGroup < totalGroups-1`
⇒ advance a group; otherwise `blocked`. -/
def handleNextRequest (api : Option Engine) : NextOutcome × Option Engine × List AEvent :=
  match api with
  | none => (NextOutcome.pageChange, none, [AEvent.pageChange])
  | some e =>
    let q := isAllGroupsComplete e
    if q.1 then (NextOutcome.pageChange, some q.2, [AEvent.pageChange])
    else
      let p := getTotalGroups q.2
      if p.2.currentGroup < (p.1 : Int) - 1 then
        (NextOutcome.animation, some (nextGroup p.2), [])
      else (NextOutcome.blocked, some p.2, [])

/-- The decision taken by the richer keyboard chain (`goNext`). -/
inductive GoNextStep where
  | advanceGroup
  | runEmphasis
  | runExit
  | changePage
deriving DecidableEq, Repr

/-- The animation-related decision of `usePPTControls.goNext` for a slide
with a registered API: enter groups first, then emphasis, then exit, then
page change. -/
def goNextStep (e : Engine) : GoNextStep × Engine :=
  let q := isAllGroupsComplete e
  if !q.1 then (GoNextStep.advanceGroup, nextGroup q.2)
  else if !isEmphasisComplete q.2 then (GoNextStep.runEmphasis, emphasis q.2)
  else if !isExitComplete q.2 then (GoNextStep.runExit, exit q.2)
  else (GoNextStep.changePage, q.2)

/-- The enter-completion flag currently recorded for an id (the value a
reader of the element map observes). -/
def enterFlagOf (s : Engine) (id : String) : Option Bool :=
  (s.elements.find? (fun e => e.id == id)).map (fun e => e.enterCompleted)

/-- Operations that may legitimately reset an id's completion flags:
re-registering that id, or the engine-wide reset. -/
def touchesId (id : String) : Op → Prop
  | Op.addElement j _ => j = id
  | Op.resetStep => True
  | _ => False

instance (id : String) (op : Op) : Decidable (touchesId id op) := by
  cases op <;> unfold touchesId <;> infer_instance

/-- A group-0 element with only an enter descriptor and an attached ref. -/
def cfgA : ElementConfig :=
  { refAttached := true
    enter := some { type := "fadeIn", duration := some 600, delay := none }
    emphasis := none, exit := none, order := none, group := some 0 }

/-- A group-0 element with enter and emphasis descriptors whose ref is
not attached (`ref.current === null`). -/
def cfgB : ElementConfig :=
  { refAttached := false
    enter := some { type := "fadeIn", duration := some 600, delay := none }
    emphasis := some { type := "pulse", duration := some 600, delay := none }
    exit := none, order := none, group := some 0 }

/-- A group-1 element with only an enter descriptor. -/
def cfgG1 : ElementConfig :=
  { refAttached := true
    enter := some { type := "fadeIn", duration := some 600, delay := none }
    emphasis := none, exit := none, order := none, group := some 1 }

/-- An element with an enter descriptor and no group tag. -/
def cfgU : ElementConfig :=
  { refAttached := true
    enter := some { type := "fadeIn", duration := some 600, delay := none }
    emphasis := none, exit := none, order := none, group := none }

/-- A two-group engine (groups 0 and 1) still pointing at group 0. -/
def egA : Engine := addElement "y" cfgG1 (addElement "x" cfgA initEngine)

/-- An engine holding one ungrouped element. -/
def egU : Engine := addElement "u" cfgU initEngine

/-- Engine obtained by registering a detached-ref element with an
emphasis descriptor and then skipping (so its `enterCompleted` is true). -/
def egDetached : Engine := (skip (addElement "b" cfgB initEngine)).1

/-- An engine with one subscriber per completion list and one element. -/
def egSkip : Engine := runOps initEngine
  [Op.onEnterComplete 0, Op.onEmphasisComplete 1, Op.onExitComplete 2, Op.addElement "a" cfgA]

/-- The element of `egSkip` as it looks after `skip`. -/
def egSkipElem : ElementState :=
  { id := "a"
    gen := 0
    config := cfgA
    enterCompleted := true
    emphasisCompleted := true
    exitCompleted := true
    currentAnimation := none }

/-- On a coherent cache, `getTotalGroups` is a pure read of the distinct
group count. -/
lemma getTotalGroups_coherent {s : Engine} (h : cacheCoherent s) :
    getTotalGroups s = (getTotalGroupsPure s.elements, s) := by
  unfold getTotalGroups
  rw [if_pos h.1, h.2]

/-- Two consecutive `getTotalGroups` calls return the same count, and the
second one changes nothing (the first call leaves the cache keyed at the
current element count). -/
lemma getTotalGroups_idem (s : Engine) :
    getTotalGroups (getTotalGroups s).2 = ((getTotalGroups s).1, (getTotalGroups s).2) := by
  unfold getTotalGroups
  by_cases h : s.groupCache.lastElementCount = (s.elements.length : Int)
  · simp [h]
  · simp [h]

lemma gtg_elements (s : Engine) : (getTotalGroups s).2.elements = s.elements := by
  unfold getTotalGroups; split <;> rfl

lemma gtg_dead (s : Engine) : (getTotalGroups s).2.dead = s.dead := by
  unfold getTotalGroups; split <;> rfl

lemma gtg_currentGroup (s : Engine) : (getTotalGroups s).2.currentGroup = s.currentGroup := by
  unfold getTotalGroups; split <;> rfl

lemma gtg_mode (s : Engine) : (getTotalGroups s).2.mode = s.mode := by
  unfold getTotalGroups; split <;> rfl

lemma gtg_isGrouped (s : Engine) : (getTotalGroups s).2.isGrouped = s.isGrouped := by
  unfold getTotalGroups; split <;> rfl

lemma gtg_timers (s : Engine) : (getTotalGroups s).2.timers = s.timers := by
  unfold getTotalGroups; split <;> rfl

lemma gtg_enterCbs (s : Engine) : (getTotalGroups s).2.enterCbs = s.enterCbs := by
  unfold getTotalGroups; split <;> rfl

lemma gtg_emphasisCbs (s : Engine) : (getTotalGroups s).2.emphasisCbs = s.emphasisCbs := by
  unfold getTotalGroups; split <;> rfl

lemma gtg_exitCbs (s : Engine) : (getTotalGroups s).2.exitCbs = s.exitCbs := by
  unfold getTotalGroups; split <;> rfl

lemma gtg_groupCbs (s : Engine) : (getTotalGroups s).2.groupCbs = s.groupCbs := by
  unfold getTotalGroups; split <;> rfl

lemma gtg_nextGen (s : Engine) : (getTotalGroups s).2.nextGen = s.nextGen := by
  unfold getTotalGroups; split <;> rfl

/-- Closed form of the per-element animation-start loops: the fold marks
exactly the guard-passing elements of the traversed snapshot as animating
`ph` and appends one timer per such element. -/
lemma foldl_procStep_eq (guard : ElementState → Bool) (ph : Phase) (mkT : ElementState → Timer)
    (l : List ElementState) : ∀ (s : Engine),
    l.foldl (procStep guard ph mkT) s =
      { s with
        elements := s.elements.map (fun x =>
          if (l.filter guard).any (fun e => x.id == e.id && x.gen == e.gen)
          then { x with currentAnimation := some ph } else x)
        timers := s.timers ++ (l.filter guard).map mkT } := by
  induction l with
  | nil => intro s; simp
  | cons e tl ih =>
    intro s
    rw [List.foldl_cons]
    by_cases hg : guard e = true
    · have hstep : procStep guard ph mkT s e =
        { s with
          elements := setObjFlags (fun x => { x with currentAnimation := some ph }) e.id e.gen s.elements
          timers := s.timers ++ [mkT e] } := by
        unfold procStep; rw [if_pos hg]
      rw [hstep, ih]
      have hel : (setObjFlags (fun x => { x with currentAnimation := some ph }) e.id e.gen s.elements).map
            (fun x => if (tl.filter guard).any (fun e' => x.id == e'.id && x.gen == e'.gen)
              then { x with currentAnimation := some ph } else x)
          = s.elements.map (fun x =>
              if (((e :: tl).filter guard)).any (fun e' => x.id == e'.id && x.gen == e'.gen)
              then { x with currentAnimation := some ph } else x) := by
        unfold setObjFlags
        rw [List.map_map]
        apply List.map_congr_left
        intro x _
        simp only [Function.comp_apply, List.filter_cons, hg, if_pos, List.any_cons]
        by_cases hk : (x.id == e.id && x.gen == e.gen) = true
        · simp [hk]
        · simp [hk]
      have htm : s.timers ++ [mkT e] ++ (tl.filter guard).map mkT
          = s.timers ++ ((e :: tl).filter guard).map mkT := by
        simp [List.filter_cons, hg, List.append_assoc]
      rw [hel, htm]
    · have hstep : procStep guard ph mkT s e = s := by
        unfold procStep; rw [if_neg hg]
      rw [hstep, ih]
      have : (e :: tl).filter guard = tl.filter guard := by
        simp [List.filter_cons, hg]
      rw [this]

/-- Mapping a config-preserving function over the registry does not
change the distinct-group computation. -/
lemma groupTags_map_config {l : List ElementState} {f : ElementState → ElementState}
    (hf : ∀ x, (f x).config = x.config) : groupTags (l.map f) = groupTags l := by
  unfold groupTags
  have hfun : ((fun e : ElementState => e.config.group) ∘ f)
      = (fun e : ElementState => e.config.group) := by
    funext x
    simp [Function.comp, hf x]
  rw [List.filterMap_map, hfun]

lemma getTotalGroupsPure_map_config {l : List ElementState} {f : ElementState → ElementState}
    (hf : ∀ x, (f x).config = x.config) :
    getTotalGroupsPure (l.map f) = getTotalGroupsPure l := by
  unfold getTotalGroupsPure
  rw [groupTags_map_config hf]

/-- Cache coherence transfers to any state with the same cache, element
count and distinct-group count. -/
lemma cacheCoherent_mk {s s' : Engine} (h : cacheCoherent s)
    (hc : s'.groupCache = s.groupCache)
    (hl : s'.elements.length = s.elements.length)
    (hp : getTotalGroupsPure s'.elements = getTotalGroupsPure s.elements) :
    cacheCoherent s' := by
  constructor
  · rw [hc, hl]; exact h.1
  · rw [hc, hp]; exact h.2

/-- On a coherent state, `animateGroup` only repoints the current group,
marks the not-yet-entered members of the group as entering, and schedules
their enter timers. -/
lemma animateGroup_eq_coherent {s : Engine} (h : cacheCoherent s) (g : Int) (ft : Option Nat) :
    animateGroup g ft s =
      { s with
        currentGroup := g
        elements := s.elements.map (fun x =>
          if ((getGroupElements s g).filter enterGuard).any
              (fun e => x.id == e.id && x.gen == e.gen)
          then { x with currentAnimation := some Phase.enter } else x)
        timers := s.timers ++ ((getGroupElements s g).filter enterGuard).map
          (fun e => Timer.enterGrouped e.id e.gen g (enterDeadline e)) } := by
  have h1 : cacheCoherent { s with currentGroup := g } := h
  cases ft with
  | none =>
    unfold animateGroup
    dsimp only
    rw [getTotalGroups_coherent h1]
    rw [foldl_procStep_eq]
    rfl
  | some n =>
    unfold animateGroup
    dsimp only
    by_cases hn : n = 0
    · rw [if_pos hn, getTotalGroups_coherent h1, foldl_procStep_eq]
      rfl
    · rw [if_neg hn, foldl_procStep_eq]
      rfl

lemma coherent_animateGroup {s : Engine} (h : cacheCoherent s) (g : Int) (ft : Option Nat) :
    cacheCoherent (animateGroup g ft s) := by
  rw [animateGroup_eq_coherent h]
  exact cacheCoherent_mk h rfl (by simp)
    (getTotalGroupsPure_map_config (fun x => by split <;> rfl))

lemma coherent_checkGroupCompletion {s : Engine} (h : cacheCoherent s) (g : Int) :
    cacheCoherent (checkGroupCompletion g s).1 := by
  unfold checkGroupCompletion
  dsimp only
  by_cases h0 : ((getGroupElements s g).all (fun e => e.enterCompleted) && !(getGroupElements s g).isEmpty) = true
  · rw [if_pos h0, getTotalGroups_coherent h]
    dsimp only
    by_cases h1 : (decide (g ≥ (getTotalGroupsPure s.elements : Int) - 1)) = true
    · rw [if_pos h1]
      exact h
    · rw [if_neg h1]
      by_cases h2 : (s.isGrouped && s.mode == AnimationMode.sequential) = true
      · rw [if_pos h2]
        exact coherent_animateGroup h (g + 1) none
      · rw [if_neg h2]
        exact h
  · rw [if_neg h0]
    exact h

lemma coherent_mutateObj {s : Engine} (h : cacheCoherent s) {id : String} {gen : Nat}
    (f : ElementState → ElementState) (hf : ∀ x, (f x).config = x.config) :
    cacheCoherent (mutateObj s id gen f) := by
  refine cacheCoherent_mk h rfl ?_ ?_
  · simp [mutateObj, setObjFlags]
  · unfold mutateObj setObjFlags
    exact getTotalGroupsPure_map_config (fun x => by
      split
      · exact hf x
      · rfl)

lemma coherent_fireTimer {s : Engine} (h : cacheCoherent s) (t : Timer) :
    cacheCoherent (fireTimer t s).1 := by
  cases t with
  | groupedStart =>
    unfold fireTimer
    rw [getTotalGroups_coherent h]
    exact coherent_animateGroup h 0 _
  | groupStart g =>
    unfold fireTimer
    exact coherent_animateGroup h g none
  | enterGrouped id gen g d =>
    unfold fireTimer
    dsimp only
    exact coherent_checkGroupCompletion
      (coherent_mutateObj h (fun e => { e with enterCompleted := true, currentAnimation := none })
        (fun x => rfl)) g
  | enterParallel id gen cohort d =>
    unfold fireTimer
    dsimp only
    split
    · exact coherent_mutateObj h (fun e => { e with enterCompleted := true, currentAnimation := none }) (fun x => rfl)
    · exact coherent_mutateObj h (fun e => { e with enterCompleted := true, currentAnimation := none }) (fun x => rfl)
  | emphasisTimer id gen cohort d =>
    unfold fireTimer
    dsimp only
    split
    · exact coherent_mutateObj h (fun e => { e with emphasisCompleted := true, currentAnimation := none }) (fun x => rfl)
    · exact coherent_mutateObj h (fun e => { e with emphasisCompleted := true, currentAnimation := none }) (fun x => rfl)
  | exitTimer id gen cohort d =>
    unfold fireTimer
    dsimp only
    split
    · exact coherent_mutateObj h (fun e => { e with exitCompleted := true, currentAnimation := none }) (fun x => rfl)
    · exact coherent_mutateObj h (fun e => { e with exitCompleted := true, currentAnimation := none }) (fun x => rfl)

lemma coherent_addElement (id : String) (cfg : ElementConfig) (s : Engine) :
    cacheCoherent (addElement id cfg s) := by
  unfold addElement
  dsimp only
  by_cases hex : (s.elements.any (fun x => x.id == id)) = true
  · rw [if_pos hex]
    unfold getTotalGroups
    rw [if_neg (by dsimp only; omega)]
    exact ⟨rfl, rfl⟩
  · rw [if_neg hex]
    unfold getTotalGroups
    rw [if_neg (by dsimp only; omega)]
    exact ⟨rfl, rfl⟩

lemma coherent_start {s : Engine} (h : cacheCoherent s) : cacheCoherent (start s) := by
  unfold start
  cases hm : s.mode with
  | parallel =>
    rw [foldl_procStep_eq]
    exact cacheCoherent_mk h rfl (by simp)
      (getTotalGroupsPure_map_config (fun x => by split <;> rfl))
  | sequential =>
    exact h

lemma coherent_emphasis {s : Engine} (h : cacheCoherent s) : cacheCoherent (emphasis s) := by
  unfold emphasis
  rw [foldl_procStep_eq]
  exact cacheCoherent_mk h rfl (by simp)
    (getTotalGroupsPure_map_config (fun x => by split <;> rfl))

lemma coherent_exit {s : Engine} (h : cacheCoherent s) : cacheCoherent (exit s) := by
  unfold exit
  rw [foldl_procStep_eq]
  exact cacheCoherent_mk h rfl (by simp)
    (getTotalGroupsPure_map_config (fun x => by split <;> rfl))

lemma coherent_skip {s : Engine} (h : cacheCoherent s) : cacheCoherent (skip s).1 := by
  unfold skip
  dsimp only
  exact cacheCoherent_mk h rfl (by simp)
    (getTotalGroupsPure_map_config (fun x => rfl))

lemma coherent_reset (s : Engine) : cacheCoherent (reset s) := ⟨rfl, rfl⟩

lemma coherent_nextGroup {s : Engine} (h : cacheCoherent s) : cacheCoherent (nextGroup s) := by
  unfold nextGroup
  rw [getTotalGroups_coherent h]
  dsimp only
  split
  · exact coherent_animateGroup h _ none
  · exact h

lemma coherent_initEngine : cacheCoherent initEngine := ⟨rfl, rfl⟩

lemma coherent_applyOp {s : Engine} (h : cacheCoherent s) (op : Op) :
    cacheCoherent (applyOp s op).1 := by
  cases op with
  | addElement id cfg => exact coherent_addElement id cfg s
  | setMode m => exact h
  | start => exact coherent_start h
  | startGrouped => exact h
  | nextGroup => exact coherent_nextGroup h
  | emphasisStep => exact coherent_emphasis h
  | exitStep => exact coherent_exit h
  | skipStep => exact coherent_skip h
  | resetStep => exact coherent_reset s
  | onEnterComplete t => exact h
  | onEmphasisComplete t => exact h
  | onExitComplete t => exact h
  | onGroupComplete t => exact h
  | fire i =>
    unfold applyOp
    dsimp only
    cases hget : s.timers.get? i with
    | none => dsimp only; exact h
    | some t => dsimp only; exact coherent_fireTimer (by exact h) t

lemma coherent_runOps {s : Engine} (h : cacheCoherent s) (ops : List Op) :
    cacheCoherent (runOps s ops) := by
  induction ops generalizing s with
  | nil => exact h
  | cons op tl ih => exact ih (coherent_applyOp h op)

/-- An id-preserving, `enterCompleted`-monotone map of the registry keeps
a recorded `enterCompleted = true`. -/
lemma enterFlag_map_mono {f : ElementState → ElementState} {id : String}
    (hid : ∀ x, (f x).id = x.id)
    (hfl : ∀ x, (x.id == id) = true → x.enterCompleted = true → (f x).enterCompleted = true) :
    ∀ {l : List ElementState},
    (l.find? (fun e => e.id == id)).map (fun e => e.enterCompleted) = some true →
    ((l.map f).find? (fun e => e.id == id)).map (fun e => e.enterCompleted) = some true := by
  intro l
  induction l with
  | nil => simp
  | cons a tl ih =>
    intro hst
    by_cases hpa : (a.id == id) = true
    · rw [@List.find?_cons_of_pos _ (fun e => e.id == id) a tl hpa] at hst
      simp at hst
      rw [List.map_cons,
          @List.find?_cons_of_pos _ (fun e => e.id == id) (f a) (tl.map f)
            (by show ((f a).id == id) = true; rw [hid a]; exact hpa)]
      simp
      exact hfl a hpa hst
    · rw [@List.find?_cons_of_neg _ (fun e => e.id == id) a tl hpa] at hst
      rw [List.map_cons,
          @List.find?_cons_of_neg _ (fun e => e.id == id) (f a) (tl.map f)
            (by show ¬((f a).id == id) = true; rw [hid a]; exact hpa)]
      exact ih hst

/-- Appending entries never erases a recorded `enterCompleted = true`. -/
lemma enterFlag_append {l l2 : List ElementState} {id : String}
    (h : (l.find? (fun e => e.id == id)).map (fun e => e.enterCompleted) = some true) :
    (((l ++ l2).find? (fun e => e.id == id))).map (fun e => e.enterCompleted) = some true := by
  rw [List.find?_append]
  cases hf : l.find? (fun e => e.id == id) with
  | none => rw [hf] at h; simp at h
  | some a =>
    rw [hf] at h
    exact h

lemma mono_foldl_proc (guard : ElementState → Bool) (ph : Phase) (mkT : ElementState → Timer)
    (l : List ElementState) {s : Engine} {id : String}
    (h : enterFlagOf s id = some true) :
    enterFlagOf (l.foldl (procStep guard ph mkT) s) id = some true := by
  rw [foldl_procStep_eq]
  unfold enterFlagOf at *
  exact enterFlag_map_mono (fun x => by split <;> rfl)
    (fun x _ hx => by split <;> exact hx) h

lemma enterFlagOf_gtg (s : Engine) (id : String) :
    enterFlagOf (getTotalGroups s).2 id = enterFlagOf s id := by
  unfold enterFlagOf
  rw [gtg_elements]

lemma mono_animateGroup (g : Int) (ft : Option Nat) {s : Engine} {id : String}
    (h : enterFlagOf s id = some true) :
    enterFlagOf (animateGroup g ft s) id = some true := by
  cases ft with
  | none =>
    unfold animateGroup
    dsimp only
    apply mono_foldl_proc
    rw [enterFlagOf_gtg]
    exact h
  | some n =>
    unfold animateGroup
    dsimp only
    by_cases hn : n = 0
    · rw [if_pos hn]
      apply mono_foldl_proc
      rw [enterFlagOf_gtg]
      exact h
    · rw [if_neg hn]
      apply mono_foldl_proc
      exact h

lemma mono_checkGroupCompletion (g : Int) {s : Engine} {id : String}
    (h : enterFlagOf s id = some true) :
    enterFlagOf (checkGroupCompletion g s).1 id = some true := by
  unfold checkGroupCompletion
  dsimp only
  split
  · split
    · rw [enterFlagOf_gtg]; exact h
    · split
      · apply mono_animateGroup
        rw [show enterFlagOf { (getTotalGroups s).2 with currentGroup := g + 1 } id
              = enterFlagOf (getTotalGroups s).2 id from rfl]
        rw [enterFlagOf_gtg]
        exact h
      · rw [enterFlagOf_gtg]; exact h
  · exact h

lemma mono_mutateObj {s : Engine} {id : String} (oid : String) (ogen : Nat)
    (f : ElementState → ElementState)
    (hid : ∀ x, (f x).id = x.id)
    (hfl : ∀ x, x.enterCompleted = true → (f x).enterCompleted = true)
    (h : enterFlagOf s id = some true) :
    enterFlagOf (mutateObj s oid ogen f) id = some true := by
  unfold mutateObj enterFlagOf at *
  dsimp only
  unfold setObjFlags
  exact enterFlag_map_mono
    (fun x => by
      split
      · exact hid x
      · rfl)
    (fun x _ hx => by
      split
      · exact hfl x hx
      · exact hx) h

lemma mono_fireTimer (t : Timer) {s : Engine} {id : String}
    (h : enterFlagOf s id = some true) :
    enterFlagOf (fireTimer t s).1 id = some true := by
  cases t with
  | groupedStart =>
    unfold fireTimer
    dsimp only
    apply mono_animateGroup
    rw [enterFlagOf_gtg]
    exact h
  | groupStart g =>
    unfold fireTimer
    exact mono_animateGroup g none h
  | enterGrouped oid ogen g d =>
    unfold fireTimer
    dsimp only
    exact mono_checkGroupCompletion g
      (mono_mutateObj oid ogen (fun e => { e with enterCompleted := true, currentAnimation := none })
        (fun x => rfl) (fun x _ => rfl) h)
  | enterParallel oid ogen cohort d =>
    unfold fireTimer
    dsimp only
    split
    · exact mono_mutateObj oid ogen (fun e => { e with enterCompleted := true, currentAnimation := none })
        (fun x => rfl) (fun x _ => rfl) h
    · exact mono_mutateObj oid ogen (fun e => { e with enterCompleted := true, currentAnimation := none })
        (fun x => rfl) (fun x _ => rfl) h
  | emphasisTimer oid ogen cohort d =>
    unfold fireTimer
    dsimp only
    split
    · exact mono_mutateObj oid ogen (fun e => { e with emphasisCompleted := true, currentAnimation := none })
        (fun x => rfl) (fun x hx => hx) h
    · exact mono_mutateObj oid ogen (fun e => { e with emphasisCompleted := true, currentAnimation := none })
        (fun x => rfl) (fun x hx => hx) h
  | exitTimer oid ogen cohort d =>
    unfold fireTimer
    dsimp only
    split
    · exact mono_mutateObj oid ogen (fun e => { e with exitCompleted := true, currentAnimation := none })
        (fun x => rfl) (fun x hx => hx) h
    · exact mono_mutateObj oid ogen (fun e => { e with exitCompleted := true, currentAnimation := none })
        (fun x => rfl) (fun x hx => hx) h

lemma mono_addElement {s : Engine} {id : String} (j : String) (cfg : ElementConfig)
    (hne : j ≠ id)
    (h : enterFlagOf s id = some true) :
    enterFlagOf (addElement j cfg s) id = some true := by
  unfold addElement
  dsimp only
  rw [enterFlagOf_gtg]
  unfold enterFlagOf at *
  split
  · exact enterFlag_map_mono
      (fun x => by
        split
        · next hxj =>
          rw [beq_iff_eq] at hxj
          exact hxj.symm
        · rfl)
      (fun x hxid hx => by
        split
        · next hxj =>
          rw [beq_iff_eq] at hxj hxid
          exact absurd (hxj ▸ hxid) hne
        · exact hx) h
  · exact enterFlag_append h

lemma mono_skip {s : Engine} {id : String}
    (h : enterFlagOf s id = some true) :
    enterFlagOf (skip s).1 id = some true := by
  unfold skip enterFlagOf at *
  dsimp only
  refine enterFlag_map_mono ?_ ?_ h
  · intro x
    rfl
  · intro x _ _
    rfl

lemma mono_start {s : Engine} {id : String}
    (h : enterFlagOf s id = some true) :
    enterFlagOf (start s) id = some true := by
  unfold start
  cases s.mode with
  | parallel => exact mono_foldl_proc _ _ _ _ h
  | sequential => exact h

lemma mono_nextGroup {s : Engine} {id : String}
    (h : enterFlagOf s id = some true) :
    enterFlagOf (nextGroup s) id = some true := by
  unfold nextGroup
  dsimp only
  split
  · apply mono_animateGroup
    rw [show enterFlagOf { (getTotalGroups s).2 with
          currentGroup := min ((getTotalGroups s).2.currentGroup + 1) (((getTotalGroups s).1 : Int) - 1) } id
        = enterFlagOf (getTotalGroups s).2 id from rfl]
    rw [enterFlagOf_gtg]
    exact h
  · rw [enterFlagOf_gtg]
    exact h

/-- One engine operation that does not re-register the id nor reset the
engine keeps a recorded `enterCompleted = true`. -/
lemma mono_applyOp {s : Engine} {id : String} (op : Op) (hop : ¬ touchesId id op)
    (h : enterFlagOf s id = some true) :
    enterFlagOf (applyOp s op).1 id = some true := by
  cases op with
  | addElement j cfg => exact mono_addElement j cfg hop h
  | setMode m => exact h
  | start => exact mono_start h
  | startGrouped => exact h
  | nextGroup => exact mono_nextGroup h
  | emphasisStep => exact mono_foldl_proc _ _ _ _ h
  | exitStep => exact mono_foldl_proc _ _ _ _ h
  | skipStep => exact mono_skip h
  | resetStep => exact absurd trivial hop
  | onEnterComplete t => exact h
  | onEmphasisComplete t => exact h
  | onExitComplete t => exact h
  | onGroupComplete t => exact h
  | fire i =>
    unfold applyOp
    dsimp only
    cases s.timers.get? i with
    | none => exact h
    | some t => exact mono_fireTimer t (by exact h)

lemma mono_runOps : ∀ (ops : List Op) (s : Engine) (id : String),
    enterFlagOf s id = some true → (∀ op ∈ ops, ¬ touchesId id op) →
    enterFlagOf (runOps s ops) id = some true
  | [], _, _, h, _ => h
  | op :: tl, s, id, h, hops => by
    unfold runOps
    rw [List.foldl_cons]
    have hrec := mono_runOps tl (applyOp s op).1 id
      (mono_applyOp op (hops op (List.mem_cons_self op tl)) h)
      (fun o ho => hops o (List.mem_cons_of_mem _ ho))
    unfold runOps at hrec
    exact hrec

/-- Under pairwise-distinct `(id, gen)` keys, membership of an element's
key among the guard-passing keys is just the guard itself. -/
lemma any_filter_key_iff {l : List ElementState} (guard : ElementState → Bool)
    (hnd : (l.map (fun e => (e.id, e.gen))).Nodup) {x : ElementState} (hx : x ∈ l) :
    ((l.filter guard).any (fun e => x.id == e.id && x.gen == e.gen)) = guard x := by
  cases hg : guard x with
  | true =>
    apply List.any_eq_true.mpr
    exact ⟨x, List.mem_filter.mpr ⟨hx, hg⟩, by simp⟩
  | false =>
    apply List.any_eq_false.mpr
    intro e he
    have hel : e ∈ l := (List.mem_filter.mp he).1
    have hge : guard e = true := (List.mem_filter.mp he).2
    intro hpred
    rw [Bool.and_eq_true, beq_iff_eq, beq_iff_eq] at hpred
    have hkey : (fun e : ElementState => (e.id, e.gen)) x = (fun e : ElementState => (e.id, e.gen)) e := by
      simp [hpred.1, hpred.2]
    have hxe : x = e := List.inj_on_of_nodup_map hnd hx hel hkey
    rw [← hxe] at hge
    rw [hg] at hge
    exact Bool.false_ne_true hge

lemma animateGroup_currentGroup (g : Int) (ft : Option Nat) (s : Engine) :
    (animateGroup g ft s).currentGroup = g := by
  cases ft with
  | none =>
    unfold animateGroup
    dsimp only
    rw [foldl_procStep_eq]
    exact gtg_currentGroup _
  | some n =>
    unfold animateGroup
    dsimp only
    by_cases hn : n = 0
    · rw [if_pos hn, foldl_procStep_eq]
      exact gtg_currentGroup _
    · rw [if_neg hn, foldl_procStep_eq]

/-- C1: on every reachable engine state, `isAllGroupsComplete()` returns
true exactly when `getCurrentGroup() >= getTotalGroups() - 1`, where
`getTotalGroups()` is the number of distinct group tags among the
registered elements, and both queries leave the engine state unchanged
(no side effects). -/
theorem isAllGroupsComplete_pointer_iff (ops : List Op) :
    ((isAllGroupsComplete (runOps initEngine ops)).1 = true ↔
      getCurrentGroup (runOps initEngine ops) ≥
        (getTotalGroupsPure (runOps initEngine ops).elements : Int) - 1)
    ∧ (isAllGroupsComplete (runOps initEngine ops)).2 = runOps initEngine ops
    ∧ (getTotalGroups (runOps initEngine ops)).1 = getTotalGroupsPure (runOps initEngine ops).elements
    ∧ (getTotalGroups (runOps initEngine ops)).2 = runOps initEngine ops := by
  have hc := coherent_runOps coherent_initEngine ops
  have hg := getTotalGroups_coherent hc
  refine ⟨?_, ?_, ?_, ?_⟩
  · unfold isAllGroupsComplete
    rw [hg]
    simp [getCurrentGroup]
  · unfold isAllGroupsComplete
    rw [hg]
  · rw [hg]
  · rw [hg]

/-- C2: the grouped-navigation gate follows its decision table in priority
order: no registered engine ⇒ page change (with the page-change callback
invoked); a registered engine with `isAllGroupsComplete()` true ⇒ page
change; otherwise `getCurrentGroup() < getTotalGroups() - 1` holds, so the
gate calls `nextGroup()` and reports `animation` — never a page change for
an engine with incomplete groups. -/
theorem handleNextRequest_decision_table :
    handleNextRequest none = (NextOutcome.pageChange, none, [AEvent.pageChange])
    ∧ ∀ e : Engine, cacheCoherent e →
        ((isAllGroupsComplete e).1 = true →
          handleNextRequest (some e) = (NextOutcome.pageChange, some e, [AEvent.pageChange]))
        ∧ ((isAllGroupsComplete e).1 = false →
          getCurrentGroup e < (getTotalGroupsPure e.elements : Int) - 1 ∧
          handleNextRequest (some e) = (NextOutcome.animation, some (nextGroup e), [])) := by
  constructor
  · rfl
  · intro e hc
    have hg := getTotalGroups_coherent hc
    have hq : isAllGroupsComplete e
        = (decide (e.currentGroup ≥ (getTotalGroupsPure e.elements : Int) - 1), e) := by
      unfold isAllGroupsComplete
      rw [hg]
    constructor
    · intro htrue
      rw [hq] at htrue
      dsimp only at htrue
      unfold handleNextRequest
      dsimp only
      rw [hq]
      dsimp only
      rw [if_pos htrue]
    · intro hfalse
      rw [hq] at hfalse
      dsimp only at hfalse
      have hlt : e.currentGroup < (getTotalGroupsPure e.elements : Int) - 1 := by
        have hnot := of_decide_eq_false hfalse
        omega
      refine ⟨hlt, ?_⟩
      unfold handleNextRequest
      dsimp only
      rw [hq]
      dsimp only
      rw [if_neg (by
        intro hcontra
        rw [hfalse] at hcontra
        exact Bool.false_ne_true hcontra)]
      rw [hg]
      dsimp only
      split
      · rfl
      · next hcond => exact absurd hlt hcond

/-- C2 witness: on the concrete two-group engine `egA` (groups 0 and 1,
current group 0) the coherence and incompleteness hypotheses hold and the
gate advances a group. -/
theorem handleNextRequest_decision_table_witness :
    cacheCoherent egA
    ∧ (isAllGroupsComplete egA).1 = false
    ∧ handleNextRequest none = (NextOutcome.pageChange, none, [AEvent.pageChange])
    ∧ handleNextRequest (some egA) = (NextOutcome.animation, some (nextGroup egA), []) :=
  ⟨by decide, by decide, handleNextRequest_decision_table.1,
    (((handleNextRequest_decision_table.2 egA (by decide)).2 (by decide)).2)⟩

/-- C7: after `reset()` the engine observes like a fresh instance: empty
element map, `getTotalGroups()` returning 0, `getCurrentGroup()` returning
0, grouped-playback flag false, and all four completion-subscriber lists
empty. -/
theorem reset_restores_initial_observables (s : Engine) :
    (reset s).elements = []
    ∧ (getTotalGroups (reset s)).1 = 0
    ∧ getCurrentGroup (reset s) = 0
    ∧ (reset s).isGrouped = false
    ∧ (reset s).enterCbs = []
    ∧ (reset s).emphasisCbs = []
    ∧ (reset s).exitCbs = []
    ∧ (reset s).groupCbs = [] := by
  refine ⟨rfl, ?_, rfl, rfl, rfl, rfl, rfl, rfl⟩
  rfl

/-- C8: with a registered engine the gate never reports `blocked`: whenever
`isAllGroupsComplete()` is false, `getCurrentGroup() < getTotalGroups() - 1`
holds (the two predicates are the same comparison), so the outcome is
always `animation` or `page-change`. -/
theorem handleNextRequest_never_blocked (s : Engine) :
    (handleNextRequest (some s)).1 ≠ NextOutcome.blocked
    ∧ ((isAllGroupsComplete s).1 = false →
        getCurrentGroup (isAllGroupsComplete s).2
          < ((getTotalGroups (isAllGroupsComplete s).2).1 : Int) - 1) := by
  have hidem := getTotalGroups_idem s
  by_cases hb : ((getTotalGroups s).2.currentGroup ≥ ((getTotalGroups s).1 : Int) - 1)
  · constructor
    · unfold handleNextRequest isAllGroupsComplete
      dsimp only
      rw [if_pos (decide_eq_true hb)]
      simp
    · intro hfalse
      unfold isAllGroupsComplete at hfalse
      dsimp only at hfalse
      rw [decide_eq_true hb] at hfalse
      exact absurd hfalse (by simp)
  · constructor
    · unfold handleNextRequest isAllGroupsComplete
      dsimp only
      rw [if_neg (by simp [hb])]
      rw [hidem]
      dsimp only
      rw [if_pos (not_le.mp hb)]
      simp
    · intro _
      unfold isAllGroupsComplete
      dsimp only
      rw [hidem]
      exact not_le.mp hb

/-- C8 witness: on the concrete two-group engine `egA` the antecedent of
the second conjunct is satisfied and the gate does not block. -/
theorem handleNextRequest_never_blocked_witness :
    (handleNextRequest (some egA)).1 ≠ NextOutcome.blocked
    ∧ (isAllGroupsComplete egA).1 = false
    ∧ getCurrentGroup (isAllGroupsComplete egA).2
        < ((getTotalGroups (isAllGroupsComplete egA).2).1 : Int) - 1 :=
  ⟨(handleNextRequest_never_blocked egA).1, by decide,
    (handleNextRequest_never_blocked egA).2 (by decide)⟩

/-- C3 counterexample: `skip` marks element `"a"` as entered, but
re-registering the same id with `addElement` (an operation on the claim's
list, with no reset in between) replaces the entry with a fresh one whose
`enterCompleted` is false again. -/
theorem addElement_overwrite_resets_enterCompleted :
    enterFlagOf (runOps initEngine [Op.addElement "a" cfgA, Op.skipStep]) "a" = some true
    ∧ enterFlagOf (runOps initEngine
        [Op.addElement "a" cfgA, Op.skipStep, Op.addElement "a" cfgA]) "a" = some false := by
  decide

/-- C3 amended: once an element's `enterCompleted` flag is true, it stays
true under any sequence of engine operations and timer firings that does
not re-register that element's id and does not reset the engine;
re-registering the same id is the one last-write-wins exception that
replaces the entry with fresh (false) flags. -/
theorem enterCompleted_monotone_without_reregistration (s : Engine) (id : String) (ops : List Op)
    (h : enterFlagOf s id = some true)
    (hops : ∀ op ∈ ops, ¬ touchesId id op) :
    enterFlagOf (runOps s ops) id = some true :=
  mono_runOps ops s id h hops

/-- C3 witness: a concrete entered element stays entered across
startGrouped, nextGroup, emphasis and a timer firing. -/
theorem enterCompleted_monotone_without_reregistration_witness :
    enterFlagOf (runOps initEngine [Op.addElement "a" cfgA, Op.skipStep]) "a" = some true
    ∧ (∀ op ∈ [Op.startGrouped, Op.nextGroup, Op.emphasisStep, Op.fire 0], ¬ touchesId "a" op)
    ∧ enterFlagOf (runOps (runOps initEngine [Op.addElement "a" cfgA, Op.skipStep])
        [Op.startGrouped, Op.nextGroup, Op.emphasisStep, Op.fire 0]) "a" = some true :=
  ⟨by decide, by decide,
    enterCompleted_monotone_without_reregistration _ "a" _ (by decide) (by decide)⟩

/-- C4 counterexample: subscribe one `onEnterComplete` callback, register
a one-element group-0 slide, start grouped playback, let the deferred
group-0 kick run (scheduling the element's enter timer), then `skip()`,
then let the stale enter timer fire: the subscriber is notified twice —
once by `skip()` and once more by the stale timer's group-completion
check, which has no already-fired guard and no timer cancellation. -/
theorem skip_stale_timer_duplicates_enterComplete :
    (runOpsTr initEngine
      [Op.onEnterComplete 0, Op.addElement "a" cfgA, Op.startGrouped,
        Op.fire 0, Op.skipStep, Op.fire 0]).2
      = [AEvent.enterDone 0, AEvent.enterDone 0] := by
  decide

/-- C4 amended: `skip()` synchronously marks every registered element's
enter/emphasis/exit flags true and notifies each subscriber of the three
completion lists exactly once in that call; however previously-scheduled
timers are neither cancelled nor guarded, so a stale enter timer firing
after `skip()` can notify the enter-completion subscribers again. -/
theorem skip_marks_all_and_notifies_once (s : Engine) :
    (∀ e ∈ (skip s).1.elements,
      e.enterCompleted = true ∧ e.emphasisCompleted = true ∧ e.exitCompleted = true)
    ∧ (skip s).2 = s.enterCbs.map AEvent.enterDone
        ++ s.emphasisCbs.map AEvent.emphasisDone
        ++ s.exitCbs.map AEvent.exitDone := by
  constructor
  · intro e he
    unfold skip at he
    dsimp only at he
    obtain ⟨x, _, hxe⟩ := List.mem_map.mp he
    rw [← hxe]
    exact ⟨rfl, rfl, rfl⟩
  · rfl

/-- C4 witness: on a concrete engine with one element and one subscriber
per completion list, `skip` sets all flags of the (unique) element and
emits exactly one notification per subscriber. -/
theorem skip_marks_all_and_notifies_once_witness :
    (∃ e, e ∈ (skip egSkip).1.elements
      ∧ e.enterCompleted = true ∧ e.emphasisCompleted = true ∧ e.exitCompleted = true)
    ∧ (skip egSkip).2 = [AEvent.enterDone 0, AEvent.emphasisDone 1, AEvent.exitDone 2] := by
  constructor
  · refine ⟨egSkipElem, ?_, ?_⟩
    · decide
    · exact (skip_marks_all_and_notifies_once egSkip).1 egSkipElem (by decide)
  · rw [(skip_marks_all_and_notifies_once egSkip).2]
    decide

/-- C5 counterexample: element `"b"` has an emphasis descriptor and
`enterCompleted = true` (after `skip`), yet `emphasis()` leaves the whole
engine unchanged — no emphasis fires because its ref is not attached
(`ref.current === null`), a third condition absent from the claim. -/
theorem emphasis_skips_unattached_ref :
    enterFlagOf egDetached "b" = some true
    ∧ (egDetached.elements.map (fun e => (e.config.emphasis.isSome, e.enterCompleted))) = [(true, true)]
    ∧ emphasis egDetached = egDetached := by
  decide

/-- C5 amended: `emphasis()` fires the emphasis animation exactly for the
elements with an attached ref, an emphasis descriptor and `enterCompleted`
true at call time (marking them as animating and scheduling one emphasis
timer each); every other element is skipped silently, and the call itself
changes no completion flag of any element. -/
theorem emphasis_fires_exactly_guarded (s : Engine)
    (hnd : (s.elements.map (fun e => (e.id, e.gen))).Nodup) :
    (emphasis s).elements = s.elements.map (fun x =>
        if x.config.refAttached && x.config.emphasis.isSome && x.enterCompleted
        then { x with currentAnimation := some Phase.emphasis } else x)
    ∧ (emphasis s).timers = s.timers ++
        (s.elements.filter (fun e => e.config.refAttached && e.config.emphasis.isSome && e.enterCompleted)).map
          (fun e => Timer.emphasisTimer e.id e.gen (s.elements.map (fun x => (x.id, x.gen))) (emphasisDeadline e)) := by
  unfold emphasis
  dsimp only
  rw [foldl_procStep_eq]
  constructor
  · dsimp only
    apply List.map_congr_left
    intro x hx
    rw [any_filter_key_iff _ hnd hx]
  · rfl

/-- C5 witness: the amended characterization evaluated on the concrete
one-element engine `egDetached`. -/
theorem emphasis_fires_exactly_guarded_witness :
    ((egDetached.elements.map (fun e => (e.id, e.gen))).Nodup)
    ∧ (emphasis egDetached).elements = egDetached.elements.map (fun x =>
        if x.config.refAttached && x.config.emphasis.isSome && x.enterCompleted
        then { x with currentAnimation := some Phase.emphasis } else x) :=
  ⟨by decide, (emphasis_fires_exactly_guarded egDetached (by decide)).1⟩

/-- C6 counterexample: on an engine with grouped playback active but no
grouped elements (`getTotalGroups() = 0`), `nextGroup()` computes
`min(0 + 1, 0 - 1) = -1` and sets the current group to `-1`, violating
both `currentGroup >= 0` and monotonicity. -/
theorem nextGroup_goes_negative_without_groups :
    (startGrouped initEngine).isGrouped = true
    ∧ getCurrentGroup (nextGroup (startGrouped initEngine)) = -1 := by
  decide

/-- C6 amended: provided at least one grouped element is registered and
the current group lies in `[0, totalGroups - 1]`, `nextGroup()` sets the
current group to `min(currentGroup + 1, totalGroups - 1)`: it is
non-decreasing, stays within range, and is a complete no-op (not an
error) when already at the last group. With no grouped elements it
instead sets the current group to `-1`. -/
theorem nextGroup_clamped_advance (s : Engine) (hc : cacheCoherent s)
    (h1 : 1 ≤ getTotalGroupsPure s.elements)
    (h0 : 0 ≤ getCurrentGroup s)
    (h2 : getCurrentGroup s ≤ (getTotalGroupsPure s.elements : Int) - 1) :
    getCurrentGroup (nextGroup s)
        = min (getCurrentGroup s + 1) ((getTotalGroupsPure s.elements : Int) - 1)
    ∧ getCurrentGroup s ≤ getCurrentGroup (nextGroup s)
    ∧ 0 ≤ getCurrentGroup (nextGroup s)
    ∧ getCurrentGroup (nextGroup s) ≤ (getTotalGroupsPure s.elements : Int) - 1
    ∧ (getCurrentGroup s = (getTotalGroupsPure s.elements : Int) - 1 → nextGroup s = s) := by
  have hg := getTotalGroups_coherent hc
  simp only [getCurrentGroup] at h0 h2 ⊢
  unfold nextGroup
  rw [hg]
  dsimp only
  by_cases hmin : min (s.currentGroup + 1) ((getTotalGroupsPure s.elements : Int) - 1) ≠ s.currentGroup
  · rw [if_pos hmin]
    rw [animateGroup_currentGroup]
    refine ⟨rfl, by omega, by omega, by omega, ?_⟩
    intro habs
    exact absurd (by omega) hmin
  · rw [if_neg hmin]
    have heq : min (s.currentGroup + 1) ((getTotalGroupsPure s.elements : Int) - 1) = s.currentGroup :=
      not_ne_iff.mp hmin
    exact ⟨heq.symm, le_refl _, h0, h2, fun _ => rfl⟩

/-- C6 witness: on the concrete two-group engine `egA` all hypotheses
hold and `nextGroup` advances the pointer to `min(1, 1) = 1`. -/
theorem nextGroup_clamped_advance_witness :
    cacheCoherent egA
    ∧ 1 ≤ getTotalGroupsPure egA.elements
    ∧ 0 ≤ getCurrentGroup egA
    ∧ getCurrentGroup egA ≤ (getTotalGroupsPure egA.elements : Int) - 1
    ∧ getCurrentGroup (nextGroup egA)
        = min (getCurrentGroup egA + 1) ((getTotalGroupsPure egA.elements : Int) - 1) :=
  ⟨by decide, by decide, by decide, by decide,
    (nextGroup_clamped_advance egA (by decide) (by decide) (by decide) (by decide)).1⟩

/-- C9: when no registered element carries an emphasis descriptor,
`isEmphasisComplete()` is vacuously true; likewise `isExitComplete()` for
exit descriptors; hence, once `isAllGroupsComplete()` holds, the richer
keyboard chain falls through to a page change for a slide whose elements
have only enter descriptors. -/
theorem vacuous_emphasis_exit_complete (s : Engine) :
    ((∀ e ∈ s.elements, e.config.emphasis = none) → isEmphasisComplete s = true)
    ∧ ((∀ e ∈ s.elements, e.config.exit = none) → isExitComplete s = true)
    ∧ ((∀ e ∈ s.elements, e.config.emphasis = none) →
        (∀ e ∈ s.elements, e.config.exit = none) →
        (isAllGroupsComplete s).1 = true →
        (goNextStep s).1 = GoNextStep.changePage) := by
  have hemph : (∀ e ∈ s.elements, e.config.emphasis = none) → isEmphasisComplete s = true := by
    intro hyp
    unfold isEmphasisComplete
    apply List.all_eq_true.mpr
    intro e he
    simp [hyp e he]
  have hexit : (∀ e ∈ s.elements, e.config.exit = none) → isExitComplete s = true := by
    intro hyp
    unfold isExitComplete
    apply List.all_eq_true.mpr
    intro e he
    simp [hyp e he]
  refine ⟨hemph, hexit, ?_⟩
  intro h1 h2 hall
  have he1 : isEmphasisComplete (isAllGroupsComplete s).2 = true := by
    have hsame : isEmphasisComplete (isAllGroupsComplete s).2 = isEmphasisComplete s := by
      unfold isEmphasisComplete isAllGroupsComplete
      dsimp only
      rw [gtg_elements]
    rw [hsame]
    exact hemph h1
  have he2 : isExitComplete (isAllGroupsComplete s).2 = true := by
    have hsame : isExitComplete (isAllGroupsComplete s).2 = isExitComplete s := by
      unfold isExitComplete isAllGroupsComplete
      dsimp only
      rw [gtg_elements]
    rw [hsame]
    exact hexit h2
  unfold goNextStep
  dsimp only
  rw [hall, he1, he2]
  rfl

/-- C9 witness: the concrete one-element enter-only engine `egU` (after
its vacuously complete state) falls through to a page change. -/
theorem vacuous_emphasis_exit_complete_witness :
    (∀ e ∈ egU.elements, e.config.emphasis = none)
    ∧ (∀ e ∈ egU.elements, e.config.exit = none)
    ∧ (isAllGroupsComplete egU).1 = true
    ∧ isEmphasisComplete egU = true
    ∧ isExitComplete egU = true
    ∧ (goNextStep egU).1 = GoNextStep.changePage := by
  have h1 : ∀ e ∈ egU.elements, e.config.emphasis = none := by decide
  have h2 : ∀ e ∈ egU.elements, e.config.exit = none := by decide
  exact ⟨h1, h2, by decide,
    (vacuous_emphasis_exit_complete egU).1 h1,
    (vacuous_emphasis_exit_complete egU).2.1 h2,
    (vacuous_emphasis_exit_complete egU).2.2 h1 h2 (by decide)⟩

/-- C10: on an engine whose registered elements carry no group tag (so
`getTotalGroups()` is 0) and whose current group is at its initial
non-negative value, `isAllGroupsComplete()` is already true before any
animation ran, and the navigation gate immediately reports a page
change. -/
theorem zero_groups_immediate_page_change (s : Engine) (hc : cacheCoherent s)
    (h0 : 0 ≤ getCurrentGroup s)
    (hg : ∀ e ∈ s.elements, e.config.group = none) :
    (getTotalGroups s).1 = 0
    ∧ (isAllGroupsComplete s).1 = true
    ∧ (handleNextRequest (some s)).1 = NextOutcome.pageChange := by
  have hpure : getTotalGroupsPure s.elements = 0 := by
    unfold getTotalGroupsPure groupTags
    have hnil : s.elements.filterMap (fun e => e.config.group) = [] :=
      List.filterMap_eq_nil_iff.mpr (fun a ha => hg a ha)
    rw [hnil]
    rfl
  have hq := getTotalGroups_coherent hc
  have hall : (isAllGroupsComplete s).1 = true := by
    unfold isAllGroupsComplete
    rw [hq]
    dsimp only
    apply decide_eq_true
    rw [hpure]
    simp only [getCurrentGroup] at h0
    omega
  refine ⟨by rw [hq]; exact hpure, hall, ?_⟩
  unfold handleNextRequest
  dsimp only
  rw [if_pos hall]

/-- C10 witness: the concrete ungrouped one-element engine `egU`. -/
theorem zero_groups_immediate_page_change_witness :
    cacheCoherent egU
    ∧ 0 ≤ getCurrentGroup egU
    ∧ (∀ e ∈ egU.elements, e.config.group = none)
    ∧ (getTotalGroups egU).1 = 0
    ∧ (isAllGroupsComplete egU).1 = true
    ∧ (handleNextRequest (some egU)).1 = NextOutcome.pageChange := by
  have hcc : cacheCoherent egU := by decide
  have h0 : (0 : Int) ≤ getCurrentGroup egU := by decide
  have hgg : ∀ e ∈ egU.elements, e.config.group = none := by decide
  exact ⟨hcc, h0, hgg,
    (zero_groups_immediate_page_change egU hcc h0 hgg).1,
    (zero_groups_immediate_page_change egU hcc h0 hgg).2.1,
    (zero_groups_immediate_page_change egU hcc h0 hgg).2.2⟩

end SlideAnim
